import Mathlib

/-!
Verification of the HLPC length-prefixed TCP message server
(`hlpc-server.py`, with the client encoder from `hlpc-agent.py`).

The wire protocol and the per-connection session loop are embedded at the
byte level: a byte is a `Nat` below 256, a message is a `List Nat` of its
UTF-8 bytes, and the data available to `socket.recv` is a list of chunks
(the successive contents of the TCP receive buffer at each blocking call).
The filesystem-based lifecycle (start / stop marker files) is embedded as a
record of booleans, one per marker file, with the concurrently running
server modelled as an environment function acting on that state while the
stop invocation sleeps.
-/

namespace HLPC

/-- HEADER constant: fixed header width of 64 bytes
(`hlpc-agent.py` line 7, `headerLength` in `hlpc-server.py` line 267). -/
def HEADER : Nat := 64

/-- UTF-8 bytes of the literal disconnect sentinel `!DISCONNECT`
(`hlpc-agent.py` line 10, `disconnect` in `hlpc-server.py` line 266). -/
def DISCONNECT : List Nat := [33, 68, 73, 83, 67, 79, 78, 78, 69, 67, 84]

/-- UTF-8 bytes of the fixed acknowledgment `Msg received`
sent by `handleClient` (`hlpc-server.py` line 309). -/
def MSG_RECEIVED : List Nat :=
  [77, 115, 103, 32, 114, 101, 99, 101, 105, 118, 101, 100]

/-- Little-endian decimal digits of `n`, with explicit fuel so the
definition is structurally recursive; `fuel ≥ n` yields all digits. -/
def decDigitsAux : Nat → Nat → List Nat
  | 0, _ => []
  | _ + 1, 0 => []
  | fuel + 1, n + 1 => ((n + 1) % 10) :: decDigitsAux fuel ((n + 1) / 10)

/-- Python `str(n)` for a non-negative integer `n`: big-endian ASCII
decimal digit bytes, `"0"` for zero (`hlpc-agent.py` line 20). -/
def natDecimalBytes (n : Nat) : List Nat :=
  if n = 0 then [48] else ((decDigitsAux n n).reverse.map (fun d => d + 48))

/-- The header block built by the agent: the decimal byte length, padded on
the right with ASCII spaces to `HEADER` bytes (`hlpc-agent.py` lines 20-21,
`send_length += b' ' * (HEADER - len(send_length))`). -/
def sendLength (msgLen : Nat) : List Nat :=
  natDecimalBytes msgLen ++
    List.replicate (HEADER - (natDecimalBytes msgLen).length) 32

/-- The full frame the agent puts on the wire for a message: header block
followed by the message bytes (`hlpc-agent.py` lines 17-23, `send`). -/
def encode (msg : List Nat) : List Nat := sendLength msg.length ++ msg

/-- ASCII decimal digit test, byte level. -/
def isDigit (b : Nat) : Bool := 48 ≤ b && b ≤ 57

/-- ASCII bytes that Python `int()` strips as whitespace:
`\t \n \v \f \r`, the separators 28-31, and the space 32. -/
def isWS (b : Nat) : Bool := (9 ≤ b && b ≤ 13) || (28 ≤ b && b ≤ 32)

/-- Strip leading and trailing whitespace bytes, as Python `int()` does
before parsing its argument. -/
def stripWS (l : List Nat) : List Nat :=
  ((l.dropWhile isWS).reverse.dropWhile isWS).reverse

/-- Digit-string value accumulator for Python `int()`: a run of decimal
digits in which a single underscore may appear between two digits. -/
def parseDigitsAux : List Nat → Nat → Option Nat
  | [], acc => some acc
  | b :: bs, acc =>
    if isDigit b then parseDigitsAux bs (acc * 10 + (b - 48))
    else if b = 95 then
      match bs with
      | b2 :: bs2 =>
          if isDigit b2 then parseDigitsAux bs2 (acc * 10 + (b2 - 48))
          else none
      | [] => none
    else none

/-- Parse an unsigned decimal digit run (first byte must be a digit). -/
def parseDigits (l : List Nat) : Option Nat :=
  match l with
  | [] => none
  | b :: _ => if isDigit b then parseDigitsAux l 0 else none

/-- Body of Python `int()` after whitespace stripping: an optional single
`+`/`-` sign followed by a digit run. -/
def pyIntCore : List Nat → Option Int
  | [] => none
  | b :: rest =>
    if b = 43 then (parseDigits rest).map (fun n => (n : Int))
    else if b = 45 then (parseDigits rest).map (fun n => -(n : Int))
    else (parseDigits (b :: rest)).map (fun n => (n : Int))

/-- Python `int(header)` on an ASCII header string (`hlpc-server.py`
line 292, `msgLength = int(header)`): strip whitespace, then parse an
optionally signed decimal literal; `none` models the `ValueError`. -/
def pyInt (l : List Nat) : Option Int := pyIntCore (stripWS l)

/-- UTF-8 validation automaton, one byte per step. The state is the number
`need` of continuation bytes still expected together with the admissible
range `[lo, hi]` for the next byte (the first continuation byte of a
sequence is range-restricted to exclude overlong encodings and surrogates;
later continuation bytes are in `[128, 191]`). -/
def utf8Aux : Nat → Nat → Nat → List Nat → Bool
  | 0, _, _, [] => true
  | 0, _, _, b :: bs =>
    if b ≤ 127 then utf8Aux 0 0 0 bs
    else if b ≤ 193 then false
    else if b ≤ 223 then utf8Aux 1 128 191 bs
    else if b = 224 then utf8Aux 2 160 191 bs
    else if b = 237 then utf8Aux 2 128 159 bs
    else if b ≤ 239 then utf8Aux 2 128 191 bs
    else if b = 240 then utf8Aux 3 144 191 bs
    else if b ≤ 243 then utf8Aux 3 128 191 bs
    else if b = 244 then utf8Aux 3 128 143 bs
    else false
  | _ + 1, _, _, [] => false
  | need + 1, lo, hi, b :: bs =>
    if lo ≤ b && b ≤ hi then utf8Aux need 128 191 bs else false

/-- Validity of a byte list as UTF-8; `bytes.decode('utf-8')` succeeds
exactly on valid input and raises `UnicodeDecodeError` otherwise. -/
def utf8Valid (l : List Nat) : Bool := utf8Aux 0 0 0 l

/-- Blocking `socket.recv(n)`: the chunk list holds the successive contents
of the receive buffer at each call. `recv` returns at most `n` bytes of the
head chunk, leaving any excess buffered; an exhausted chunk list models a
connection closed by the peer, on which `recv` returns empty bytes. -/
def recv (n : Nat) (chunks : List (List Nat)) : List Nat × List (List Nat) :=
  match chunks with
  | [] => ([], [])
  | c :: cs => if c.length ≤ n then (c, cs) else (c.take n, c.drop n :: cs)

/-- Observable event of a session: a message logged by the server
(`log.info(f"... sent {msg}")`) or bytes sent back to the client. -/
inductive Ev where
  | got (msg : List Nat)
  | sent (bytes : List Nat)
deriving DecidableEq

/-- Uncaught exception terminating a session thread. -/
inductive Err where
  /-- `UnicodeDecodeError` from `conn.recv(headerLength).decode(format)`. -/
  | headerDecode
  /-- `ValueError` from `int(header)`. -/
  | headerParse
  /-- `ValueError` from `conn.recv(msgLength)` with a negative length. -/
  | negLength
  /-- `UnicodeDecodeError` from `conn.recv(msgLength).decode(format)`. -/
  | payloadDecode
deriving DecidableEq

/-- How a run of the session loop ended. -/
inductive ExitKind where
  /-- The `while connected` condition became false; control reaches the
  trailing `conn.close()`. -/
  | loopExit
  /-- An uncaught exception killed the thread inside the loop. -/
  | exn (e : Err)
  /-- Fuel ran out with the loop still running. -/
  | fuelOut
deriving DecidableEq

/-- Result of running a session: its event trace, how the loop ended, and
whether `conn.close()` (line 315) was executed. -/
structure SessionResult where
  events : List Ev
  exit : ExitKind
  closeCalled : Bool
deriving DecidableEq

/-- The per-connection session loop `handleClient` (`hlpc-server.py`
lines 259-315), run against a chunk stream, with fuel bounding the number
of loop iterations. Each iteration reads up to `HEADER` bytes, and if the
decoded header is non-empty parses it with `int`, reads the payload with a
single `conn.recv(msgLength)`, logs the message, and acknowledges it with
`MSG_RECEIVED`; receiving the `DISCONNECT` payload clears `connected`, so
the loop exits after that acknowledgment and `conn.close()` runs. An empty
header skips the body and the loop re-enters `recv`. `conn.close()` is
reached only when the loop exits normally: an uncaught exception kills the
thread without closing the connection. -/
def handleClient : Nat → List (List Nat) → SessionResult
  | 0, _ => ⟨[], ExitKind.fuelOut, false⟩
  | fuel + 1, chunks =>
    let hdrB := (recv HEADER chunks).1
    let chunks1 := (recv HEADER chunks).2
    if utf8Valid hdrB then
      if hdrB.isEmpty then handleClient fuel chunks1
      else
        match pyInt hdrB with
        | none => ⟨[], ExitKind.exn Err.headerParse, false⟩
        | some len =>
          if len < 0 then ⟨[], ExitKind.exn Err.negLength, false⟩
          else
            let msgB := (recv len.toNat chunks1).1
            let chunks2 := (recv len.toNat chunks1).2
            if utf8Valid msgB then
              if msgB = DISCONNECT then
                ⟨[Ev.got msgB, Ev.sent MSG_RECEIVED], ExitKind.loopExit, true⟩
              else
                let r := handleClient fuel chunks2
                ⟨Ev.got msgB :: Ev.sent MSG_RECEIVED :: r.events,
                  r.exit, r.closeCalled⟩
            else ⟨[], ExitKind.exn Err.payloadDecode, false⟩
    else ⟨[], ExitKind.exn Err.headerDecode, false⟩

/-- The accept loop `serverListen` (`hlpc-server.py` lines 318-343) over a
finite prefix of incoming connections, each given by its chunk stream.
Every accepted connection is handed to `handleClient` on its own daemon
thread (`threading.Thread(..., daemon=True)`), and an uncaught exception in
`handleClient` terminates only that thread, so the sessions are independent
and the accept loop neither waits on them nor observes their outcomes:
the dispatcher is a plain map over the accepted connections. -/
def serverListen (fuel : Nat) (incoming : List (List (List Nat))) :
    List SessionResult :=
  incoming.map (handleClient fuel)

/-- Existence of the data directory and of the three sentinel marker files
(`outageNow`, `serverIsRunning`, `shutdownServerNow`; `hlpc-server.py`
lines 23-38), the only filesystem state the lifecycle code touches. -/
structure FS where
  dataDir : Bool
  serverRunning : Bool
  shutdownRequested : Bool
  outageRequested : Bool
deriving DecidableEq

/-- `cleanup` (`hlpc-server.py` lines 401-429): delete each of the three
marker files, each guarded by its own existence check, so a missing file is
skipped rather than an error. -/
def cleanup (fs : FS) : FS :=
  let fs1 := if fs.outageRequested then {fs with outageRequested := false} else fs
  let fs2 := if fs1.serverRunning then {fs1 with serverRunning := false} else fs1
  if fs2.shutdownRequested then {fs2 with shutdownRequested := false} else fs2

/-- `preServerInitChecks` (`hlpc-server.py` lines 132-192): ensure the data
directory exists (creating it when `mkdirOk`, else `sys.exit()`), then
abort with `sys.exit()` if the `serverRunning` marker already exists.
A bare `sys.exit()` terminates the process with status 0, so every abort is
modelled as `some 0`; `none` means the checks passed and control continues.
-/
def preServerInitChecks (fs : FS) (mkdirOk : Bool) : FS × Option Nat :=
  if fs.dataDir then
    if fs.serverRunning then (fs, some 0) else (fs, none)
  else
    if mkdirOk then
      let fs1 : FS := {fs with dataDir := true}
      if fs1.serverRunning then (fs1, some 0) else (fs1, none)
    else (fs, some 0)

/-- `serverInit` (`hlpc-server.py` lines 195-256): bind the socket (exiting
via bare `sys.exit()`, status 0, when the bind fails) and on success create
the `serverRunning` marker file. -/
def serverInit (fs : FS) (bindOk : Bool) : FS × Option Nat :=
  if bindOk then ({fs with serverRunning := true}, none) else (fs, some 0)

/-- Outcome of a `--start` invocation: the resulting filesystem state,
whether the socket was ever created and bound, and `some c` when the
process exited with status `c` before reaching the server daemon. -/
structure StartResult where
  fs : FS
  socketTouched : Bool
  exited : Option Nat
deriving DecidableEq

/-- The `--start` branch of `__main__` (`hlpc-server.py` lines 522-534):
run `preServerInitChecks`, and only if they pass call `serverInit`; an
abort in the checks therefore happens before the socket is touched. -/
def startMain (fs : FS) (mkdirOk bindOk : Bool) : StartResult :=
  match preServerInitChecks fs mkdirOk with
  | (fs1, some c) => ⟨fs1, false, some c⟩
  | (fs1, none) =>
    let r := serverInit fs1 bindOk
    ⟨r.1, true, r.2⟩

/-- What a `--stop` invocation reports before exiting. -/
inductive StopReport where
  /-- `No server is currently running`. -/
  | noServer
  /-- `Server successfully shutdown`. -/
  | success
  /-- `Could not shutdown the server, please manually check ...`. -/
  | fatalManual
deriving DecidableEq

/-- Outcome of a `--stop` invocation: final filesystem state, the report,
and the process exit status (every path ends in a bare `sys.exit()`,
status 0). -/
structure StopResult where
  fs : FS
  report : StopReport
  exitCode : Nat
deriving DecidableEq

/-- The fixed wait of the stop invocation, `time.sleep(20)`
(`hlpc-server.py` line 600). -/
def STOP_WAIT : Nat := 20

/-- The `--stop` branch of `__main__` (`hlpc-server.py` lines 556-624).
If the data directory is missing, report and exit. If the `serverRunning`
marker is absent, run `cleanup` and exit. Otherwise create the
`shutdownServerNow` marker, sleep `STOP_WAIT` time units — during which the
concurrently running server process may change the filesystem, modelled by
the environment function `env` applied to the elapsed time and the state —
and then check once: if `serverRunning` still exists report a fatal error
requiring manual intervention, else report success. The stop process
performs no writes after the wait, in particular it never deletes
`serverRunning` itself and never forcibly terminates the server. -/
def stopMain (fs : FS) (env : Nat → FS → FS) : StopResult :=
  if fs.dataDir = false then ⟨fs, StopReport.noServer, 0⟩
  else if fs.serverRunning = false then ⟨cleanup fs, StopReport.noServer, 0⟩
  else
    let fs1 : FS := {fs with shutdownRequested := true}
    let fs2 := env STOP_WAIT fs1
    if fs2.serverRunning then ⟨fs2, StopReport.fatalManual, 0⟩
    else ⟨fs2, StopReport.success, 0⟩

/-- An environment in which the running server notices the shutdown request
and cleans up during the wait: used to instantiate witnesses. -/
def stopEnvClean : Nat → FS → FS :=
  fun _ s => {s with serverRunning := false, shutdownRequested := false}

/-- UTF-8 bytes of the concrete message `Hey there` sent by the agent
(`hlpc-agent.py` line 29). -/
def heyBytes : List Nat := [72, 101, 121, 32, 116, 104, 101, 114, 101]



lemma utf8Valid_ascii (l : List Nat) (h : ∀ b ∈ l, b < 128) :
    utf8Valid l = true := by
  unfold utf8Valid
  induction l with
  | nil => rfl
  | cons b bs ih =>
    have hb : b ≤ 127 := by have := h b (List.mem_cons_self b bs); omega
    rw [utf8Aux, if_pos hb]
    exact ih (fun x hx => h x (List.mem_cons_of_mem _ hx))

lemma decDigitsAux_foldr : ∀ (fuel n : Nat), n ≤ fuel →
    (decDigitsAux fuel n).foldr (fun d a => a * 10 + d) 0 = n
  | 0, n, h => by
    have : n = 0 := Nat.le_zero.mp h
    subst this; rfl
  | fuel + 1, 0, _ => by simp [decDigitsAux]
  | fuel + 1, n + 1, h => by
    have hdiv : (n + 1) / 10 ≤ fuel := by
      have : (n + 1) / 10 < n + 1 := Nat.div_lt_self (Nat.succ_pos n) (by norm_num)
      omega
    simp only [decDigitsAux, List.foldr_cons,
      decDigitsAux_foldr fuel ((n + 1) / 10) hdiv]
    omega

lemma decDigitsAux_mem_lt : ∀ (fuel n d : Nat), d ∈ decDigitsAux fuel n → d < 10
  | 0, _, d, h => by simp [decDigitsAux] at h
  | fuel + 1, 0, d, h => by simp [decDigitsAux] at h
  | fuel + 1, n + 1, d, h => by
    simp only [decDigitsAux, List.mem_cons] at h
    rcases h with rfl | h
    · exact Nat.mod_lt _ (by norm_num)
    · exact decDigitsAux_mem_lt fuel _ d h

lemma natDecimalBytes_ne_nil (n : Nat) : natDecimalBytes n ≠ [] := by
  unfold natDecimalBytes
  by_cases h : n = 0
  · simp [h]
  · obtain ⟨m, rfl⟩ := Nat.exists_eq_succ_of_ne_zero h
    simp [decDigitsAux]

lemma natDecimalBytes_isDigit (n : Nat) : ∀ b ∈ natDecimalBytes n, isDigit b = true := by
  intro b hb
  unfold natDecimalBytes at hb
  by_cases h : n = 0
  · simp [h] at hb
    subst hb; decide
  · simp only [h, if_false, List.mem_map, List.mem_reverse] at hb
    obtain ⟨d, hd, rfl⟩ := hb
    have : d < 10 := decDigitsAux_mem_lt n n d hd
    simp [isDigit]; omega

lemma natDecimalBytes_val (n : Nat) :
    (natDecimalBytes n).foldl (fun a b => a * 10 + (b - 48)) 0 = n := by
  unfold natDecimalBytes
  by_cases h : n = 0
  · simp [h]
  · rw [if_neg h, List.foldl_map]
    simp only [Nat.add_sub_cancel]
    rw [List.foldl_reverse]
    exact decDigitsAux_foldr n n le_rfl

lemma parseDigitsAux_cons_digit (b : Nat) (bs : List Nat) (acc : Nat)
    (hb : isDigit b = true) :
    parseDigitsAux (b :: bs) acc = parseDigitsAux bs (acc * 10 + (b - 48)) := by
  rw [parseDigitsAux.eq_def]
  simp only [hb, if_true]

lemma parseDigitsAux_digits : ∀ (l : List Nat) (acc : Nat),
    (∀ b ∈ l, isDigit b = true) →
    parseDigitsAux l acc = some (l.foldl (fun a b => a * 10 + (b - 48)) acc)
  | [], _, _ => rfl
  | b :: bs, acc, h => by
    have hb := h b (List.mem_cons_self b bs)
    rw [parseDigitsAux_cons_digit b bs acc hb, List.foldl_cons]
    exact parseDigitsAux_digits bs _ (fun x hx => h x (List.mem_cons_of_mem _ hx))

lemma parseDigits_natDecimalBytes (n : Nat) :
    parseDigits (natDecimalBytes n) = some n := by
  rcases hl : natDecimalBytes n with _ | ⟨b, bs⟩
  · exact absurd hl (natDecimalBytes_ne_nil n)
  · have hd : ∀ x ∈ b :: bs, isDigit x = true := by
      rw [← hl]; exact natDecimalBytes_isDigit n
    have hb : isDigit b = true := hd b (List.mem_cons_self _ _)
    have hval := natDecimalBytes_val n
    rw [hl] at hval
    simp only [parseDigits, hb, if_true]
    rw [parseDigitsAux_digits (b :: bs) 0 hd, hval]

lemma isWS_of_digit_false {b : Nat} (h : isDigit b = true) : isWS b = false := by
  simp only [isDigit, Bool.and_eq_true, decide_eq_true_eq] at h
  simp only [isWS, Bool.or_eq_false_iff, Bool.and_eq_false_iff,
    decide_eq_false_iff_not, Nat.not_le]
  omega

lemma dropWhile_isWS_digits (l : List Nat) (h : ∀ b ∈ l, isDigit b = true) :
    l.dropWhile isWS = l := by
  cases l with
  | nil => rfl
  | cons b bs =>
    have hb : isWS b = false := isWS_of_digit_false (h b (List.mem_cons_self _ _))
    simp [List.dropWhile_cons, hb]

lemma dropWhile_isWS_replicate_append (k : Nat) (t : List Nat) :
    (List.replicate k 32 ++ t).dropWhile isWS = t.dropWhile isWS := by
  induction k with
  | zero => rfl
  | succ m ih =>
    rw [List.replicate_succ, List.cons_append, List.dropWhile_cons,
      if_pos (by decide : isWS 32 = true)]
    exact ih

lemma stripWS_digits_pad (l : List Nat) (k : Nat) (hne : l ≠ [])
    (hd : ∀ b ∈ l, isDigit b = true) :
    stripWS (l ++ List.replicate k 32) = l := by
  unfold stripWS
  have h1 : (l ++ List.replicate k 32).dropWhile isWS = l ++ List.replicate k 32 := by
    cases l with
    | nil => exact absurd rfl hne
    | cons b bs =>
      have hb : isWS b = false := isWS_of_digit_false (hd b (List.mem_cons_self _ _))
      simp [List.cons_append, List.dropWhile_cons, hb]
  rw [h1, List.reverse_append, List.reverse_replicate,
    dropWhile_isWS_replicate_append,
    dropWhile_isWS_digits l.reverse (fun b hb => hd b (List.mem_reverse.mp hb)),
    List.reverse_reverse]

lemma pyInt_decimal_pad (n k : Nat) :
    pyInt (natDecimalBytes n ++ List.replicate k 32) = some (n : Int) := by
  unfold pyInt
  rw [stripWS_digits_pad _ _ (natDecimalBytes_ne_nil n) (natDecimalBytes_isDigit n)]
  rcases hl : natDecimalBytes n with _ | ⟨b, bs⟩
  · exact absurd hl (natDecimalBytes_ne_nil n)
  · have hb : isDigit b = true := by
      have := natDecimalBytes_isDigit n b
      rw [hl] at this
      exact this (List.mem_cons_self _ _)
    have hb48 : 48 ≤ b ∧ b ≤ 57 := by
      simpa [isDigit] using hb
    have hp : parseDigits (natDecimalBytes n) = some n := parseDigits_natDecimalBytes n
    rw [hl] at hp
    simp only [pyIntCore]
    rw [if_neg (by omega : ¬ b = 43), if_neg (by omega : ¬ b = 45), hp]
    rfl

lemma pyInt_sendLength (L : Nat) : pyInt (sendLength L) = some (L : Int) := by
  unfold sendLength
  exact pyInt_decimal_pad _ _

lemma sendLength_length (L : Nat) (h : (natDecimalBytes L).length ≤ HEADER) :
    (sendLength L).length = HEADER := by
  simp only [sendLength, List.length_append, List.length_replicate]
  omega

lemma sendLength_ascii (L : Nat) : ∀ b ∈ sendLength L, b < 128 := by
  intro b hb
  rcases List.mem_append.mp hb with h | h
  · have := natDecimalBytes_isDigit L b h
    simp only [isDigit, Bool.and_eq_true, decide_eq_true_eq] at this
    omega
  · have := List.eq_of_mem_replicate h
    omega

lemma utf8Valid_sendLength (L : Nat) : utf8Valid (sendLength L) = true :=
  utf8Valid_ascii _ (sendLength_ascii L)

lemma sendLength_ne_nil (L : Nat) : sendLength L ≠ [] := by
  intro h
  exact natDecimalBytes_ne_nil L (List.append_eq_nil.mp h).1

lemma sendLength_isEmpty (L : Nat) : (sendLength L).isEmpty = false := by
  rcases h : sendLength L with _ | ⟨b, bs⟩
  · exact absurd h (sendLength_ne_nil L)
  · rfl

lemma handleClient_frame_step (m : List Nat) (rest pc chunks : List (List Nat))
    (fuel : Nat) (hv : utf8Valid m = true) (hm : m ≠ DISCONNECT)
    (h1 : recv HEADER chunks = (sendLength m.length, pc))
    (h2 : recv m.length pc = (m, rest)) :
    handleClient (fuel + 1) chunks =
      ⟨Ev.got m :: Ev.sent MSG_RECEIVED :: (handleClient fuel rest).events,
        (handleClient fuel rest).exit, (handleClient fuel rest).closeCalled⟩ := by
  have hneg : ¬ ((m.length : Int) < 0) := by omega
  simp [handleClient, h1, utf8Valid_sendLength, sendLength_isEmpty,
    pyInt_sendLength, hneg, Int.toNat_natCast, h2, hv, hm]

theorem c1_roundtrip (m : List Nat) (rest : List (List Nat)) (fuel : Nat)
    (hv : utf8Valid m = true) (hm : m ≠ DISCONNECT)
    (hfit : (natDecimalBytes m.length).length ≤ HEADER)
    (hrest : ∀ c ∈ rest, c ≠ []) :
    handleClient (fuel + 1) (encode m :: rest) =
      ⟨Ev.got m :: Ev.sent MSG_RECEIVED :: (handleClient fuel rest).events,
        (handleClient fuel rest).exit, (handleClient fuel rest).closeCalled⟩ := by
  rcases m with _ | ⟨b0, m0⟩
  · refine handleClient_frame_step [] rest rest _ fuel hv hm ?_ ?_
    · simp [recv, encode, (show (sendLength 0).length ≤ HEADER by decide)]
    · cases rest with
      | nil => rfl
      | cons c cs =>
        have hc : c ≠ [] := hrest c (List.mem_cons_self _ _)
        simp [recv, hc]
  · have hL : (sendLength (b0 :: m0).length).length = HEADER :=
      sendLength_length _ hfit
    refine handleClient_frame_step (b0 :: m0) rest ((b0 :: m0) :: rest) _ fuel hv hm ?_ ?_
    · have hlen2 : (encode (b0 :: m0)).length = HEADER + (b0 :: m0).length := by
        simp only [encode, List.length_append, hL]
      have hgt : ¬ ((encode (b0 :: m0)).length ≤ HEADER) := by
        intro hcontra
        rw [hlen2] at hcontra
        simp only [HEADER, List.length_cons] at hcontra
        omega
      have t1 : (encode (b0 :: m0)).take HEADER = sendLength (b0 :: m0).length :=
        List.take_left' hL
      have t2 : (encode (b0 :: m0)).drop HEADER = b0 :: m0 :=
        List.drop_left' hL
      simp only [recv]
      rw [if_neg hgt, t1, t2]
    · simp [recv]

theorem c4_bad_header_terminates (hdr : List Nat) (rest : List (List Nat))
    (others : List (List (List Nat))) (fuel fuel2 : Nat)
    (hne : hdr ≠ []) (hlen : hdr.length ≤ HEADER)
    (hascii : ∀ b ∈ hdr, b < 128)
    (hbad : ∀ n : Int, pyInt hdr = some n → n < 0) :
    (∃ e, (e = Err.headerParse ∨ e = Err.negLength) ∧
      handleClient (fuel + 1) (hdr :: rest) = ⟨[], ExitKind.exn e, false⟩) ∧
    serverListen fuel2 ((hdr :: rest) :: others) =
      handleClient fuel2 (hdr :: rest) :: serverListen fuel2 others := by
  constructor
  · have h1 : recv HEADER (hdr :: rest) = (hdr, rest) := by
      simp [recv, hlen]
    have hval : utf8Valid hdr = true := utf8Valid_ascii hdr hascii
    have hemp : hdr.isEmpty = false := by
      cases hdr with
      | nil => exact absurd rfl hne
      | cons a as => rfl
    rcases hp : pyInt hdr with _ | n
    · exact ⟨Err.headerParse, Or.inl rfl, by simp [handleClient, h1, hval, hemp, hp]⟩
    · have hn : n < 0 := hbad n hp
      exact ⟨Err.negLength, Or.inr rfl, by simp [handleClient, h1, hval, hemp, hp, hn]⟩
  · rfl

theorem c1_roundtrip_witness :
    handleClient 1 [encode heyBytes] =
      ⟨Ev.got heyBytes :: Ev.sent MSG_RECEIVED ::
          (handleClient 0 ([] : List (List Nat))).events,
        (handleClient 0 ([] : List (List Nat))).exit,
        (handleClient 0 ([] : List (List Nat))).closeCalled⟩ :=
  c1_roundtrip heyBytes [] 0 (by decide) (by decide) (by decide) (by simp)

theorem c4_bad_header_witness :
    (∃ e, (e = Err.headerParse ∨ e = Err.negLength) ∧
      handleClient 1 [[58]] = ⟨[], ExitKind.exn e, false⟩) ∧
    serverListen 0 [[[58]]] = handleClient 0 [[58]] :: serverListen 0 [] :=
  c4_bad_header_terminates [58] [] [] 0 0 (by decide) (by decide) (by decide)
    (fun n hn => by
      rw [(by decide : pyInt [58] = none)] at hn
      cases hn)

/-- C2: a frame whose payload is the disconnect sentinel is logged, then
acknowledged exactly once (the flag `connected` is cleared before the ack
is sent, and the ack precedes the loop-continuation check), after which the
loop exits and `conn.close()` runs. The result does not depend on `rest`:
no further frames are read after the sentinel. -/
theorem c2_disconnect_single_ack (rest : List (List Nat)) (fuel : Nat) :
    handleClient (fuel + 1) (encode DISCONNECT :: rest) =
      ⟨[Ev.got DISCONNECT, Ev.sent MSG_RECEIVED], ExitKind.loopExit, true⟩ :=
  rfl

/-- C3: when the peer closes the connection every `recv` returns empty
bytes; the session loop then skips the frame-processing body and calls
`recv` again, for any number of iterations: it never exits the loop and
never reaches `conn.close()`, contradicting the claimed transition to
CLOSED. -/
theorem c3_empty_read_never_closes (fuel : Nat) :
    handleClient fuel [] = ⟨[], ExitKind.fuelOut, false⟩ := by
  induction fuel with
  | zero => rfl
  | succ n ih => simpa [handleClient, recv] using ih

/-- C5: a frame whose header declares 9 payload bytes, with only the 4
bytes of `Hey ` buffered when the payload `recv` runs: the single
`conn.recv(msgLength)` returns the 4 bytes and the code logs and
acknowledges this partial payload as the complete message — the read is
not retried. -/
theorem c5_short_read_accepted :
    handleClient 2 [sendLength 9, [72, 101, 121, 32]] =
      ⟨[Ev.got [72, 101, 121, 32], Ev.sent MSG_RECEIVED],
        ExitKind.fuelOut, false⟩ := by
  decide

/-- C6 counterexample: a session terminated by the uncaught `ValueError`
from `int(header)` (header byte `?`) is an exit path on which
`conn.close()` is never executed: the connection is leaked. -/
theorem c6_error_path_leaks :
    handleClient 1 [[63]] = ⟨[], ExitKind.exn Err.headerParse, false⟩ := by
  decide

/-- C6 amended: `conn.close()` runs exactly when the session loop exits
normally (`connected` cleared by the disconnect sentinel); a session
terminated by an uncaught exception never closes the connection. -/
theorem c6_close_iff_normal_exit :
    ∀ (fuel : Nat) (chunks : List (List Nat)),
      ((handleClient fuel chunks).closeCalled = true ↔
        (handleClient fuel chunks).exit = ExitKind.loopExit) := by
  intro fuel
  induction fuel with
  | zero => intro chunks; simp [handleClient]
  | succ n ih =>
    intro chunks
    simp only [handleClient]
    split
    · split
      · exact ih _
      · split
        · simp
        · split
          · simp
          · split
            · split
              · simp
              · simpa using ih _
            · simp
    · simp

/-- C7 counterexample: starting against a data directory that already holds
the `serverRunning` marker aborts before the socket is touched and leaves
the marker in place, but the process exits with status 0 (`sys.exit()`
with no argument), not with a non-zero code as claimed. -/
theorem c7_second_start_exits_zero :
    (startMain ⟨true, true, false, false⟩ true true).exited = some 0 ∧
    (startMain ⟨true, true, false, false⟩ true true).socketTouched = false ∧
    (startMain ⟨true, true, false, false⟩ true true).fs.serverRunning = true := by
  decide

/-- C7 amended: a start invocation against a filesystem whose
`serverRunning` marker exists aborts in `preServerInitChecks` before
`serverInit` is called — the socket is never created or bound — leaves the
whole filesystem state, in particular the marker, untouched, and exits the
process with status 0. -/
theorem c7_duplicate_start_aborts (fs : FS) (mkdirOk bindOk : Bool)
    (hd : fs.dataDir = true) (hr : fs.serverRunning = true) :
    startMain fs mkdirOk bindOk = ⟨fs, false, some 0⟩ := by
  simp [startMain, preServerInitChecks, hd, hr]

/-- C7 witness: the amended theorem applied at a concrete filesystem state
with the data directory and the running marker present. -/
theorem c7_duplicate_start_witness :
    startMain ⟨true, true, false, false⟩ true true =
      ⟨⟨true, true, false, false⟩, false, some 0⟩ :=
  c7_duplicate_start_aborts ⟨true, true, false, false⟩ true true rfl rfl

/-- C8: a stop invocation run while `serverRunning` exists creates the
`shutdownServerNow` marker and then lets `STOP_WAIT = 20` time units pass
(during which only the concurrently running server, modelled by `env`, acts
on the filesystem); it exits with status 0, reports success exactly when
the `serverRunning` marker is gone when the wait ends, and otherwise
reports the fatal manual-intervention error; in either case the final
filesystem state is exactly what the environment left — the stop process
makes no write after the wait and never forcibly terminates the server. -/
theorem c8_stop_waits_and_reports (fs : FS) (env : Nat → FS → FS)
    (hd : fs.dataDir = true) (hr : fs.serverRunning = true) :
    (stopMain fs env).fs = env STOP_WAIT {fs with shutdownRequested := true} ∧
    (stopMain fs env).exitCode = 0 ∧
    ((stopMain fs env).report = StopReport.success ↔
      (env STOP_WAIT {fs with shutdownRequested := true}).serverRunning = false) ∧
    ((env STOP_WAIT {fs with shutdownRequested := true}).serverRunning = true →
      (stopMain fs env).report = StopReport.fatalManual) := by
  have h1 : stopMain fs env =
      if (env STOP_WAIT {fs with shutdownRequested := true}).serverRunning
      then ⟨env STOP_WAIT {fs with shutdownRequested := true},
              StopReport.fatalManual, 0⟩
      else ⟨env STOP_WAIT {fs with shutdownRequested := true},
              StopReport.success, 0⟩ := by
    simp [stopMain, hd, hr]
  cases hb : (env STOP_WAIT {fs with shutdownRequested := true}).serverRunning with
  | false => simp [h1, hb]
  | true => simp [h1, hb]

/-- C8 witness: the theorem applied at a concrete state, with an
environment in which the server notices the request and cleans up. -/
theorem c8_stop_witness :
    (stopMain ⟨true, true, false, false⟩ stopEnvClean).fs =
      stopEnvClean STOP_WAIT ⟨true, true, true, false⟩ ∧
    (stopMain ⟨true, true, false, false⟩ stopEnvClean).exitCode = 0 ∧
    ((stopMain ⟨true, true, false, false⟩ stopEnvClean).report =
        StopReport.success ↔
      (stopEnvClean STOP_WAIT ⟨true, true, true, false⟩).serverRunning = false) ∧
    ((stopEnvClean STOP_WAIT ⟨true, true, true, false⟩).serverRunning = true →
      (stopMain ⟨true, true, false, false⟩ stopEnvClean).report =
        StopReport.fatalManual) :=
  c8_stop_waits_and_reports ⟨true, true, false, false⟩ stopEnvClean rfl rfl

/-- C9: a stop invocation run while the data directory exists but the
`serverRunning` marker is absent runs `cleanup` (which deletes each of the
three marker files only if present) and exits with status 0; the result
does not mention the environment, so no waiting happens. -/
theorem c9_stop_already_stopped (fs : FS) (env : Nat → FS → FS)
    (hd : fs.dataDir = true) (hr : fs.serverRunning = false) :
    stopMain fs env = ⟨cleanup fs, StopReport.noServer, 0⟩ := by
  simp [stopMain, hd, hr]

/-- C9 witness: the theorem applied at a concrete state with stray
`shutdownServerNow` and `outageNow` markers present. -/
theorem c9_stop_witness :
    stopMain ⟨true, false, true, true⟩ stopEnvClean =
      ⟨cleanup ⟨true, false, true, true⟩, StopReport.noServer, 0⟩ :=
  c9_stop_already_stopped ⟨true, false, true, true⟩ stopEnvClean rfl rfl

/-- C10: a received header block of 64 ASCII spaces is a non-empty read
whose content is empty after trimming; `int(header)` raises an uncaught
`ValueError` and the session terminates with that error — it is neither
acknowledged as a benign frame nor treated as a clean peer close. -/
theorem c10_all_spaces_header_errors :
    handleClient 1 [List.replicate 64 32] =
      ⟨[], ExitKind.exn Err.headerParse, false⟩ := by
  decide

end HLPC
